import Mathlib

/-!
Verification of the trip-planner HOS (Hours of Service) duty scheduler and its
rendering/validation collaborators.

The repository's visible source holds the React frontend (log-sheet renderer,
trip form) while the Django backend rule engine is described by the design
document.  The scheduler, rule set, fuel-stop planner and daily aggregator are
therefore modelled here from the specification text; the renderer's row
mapping (`TYPE_TO_ROW`) and the trip form's `validate` function are embedded
directly from the source files.

All durations are fractional hours and all distances are kilometres, carried
as exact rationals (the spec demands exact threshold comparisons with no
rounding).
-/

namespace TripPlanner

attribute [local semireducible] Rat.add Rat.mul Rat.inv Rat.sub Rat.ofScientific

deriving instance DecidableEq for Except

/-- Modelled from the spec: the four FMCSA duty statuses governing which rule
limits accrue. -/
inductive DutyStatus where
  | OffDuty
  | SleeperBerth
  | Driving
  | OnDutyNotDriving
deriving DecidableEq

/-- Modelled from the spec: the closed set of recognized event subtypes
(`driving`, `on_duty`, `off_duty`, `sleeper`, `break`, `fuel`, `restart`).
The `break` subtype is spelled `brk` because `break` is a reserved word. -/
inductive EventSubtype where
  | driving
  | on_duty
  | off_duty
  | sleeper
  | brk
  | fuel
  | restart
deriving DecidableEq

/-- Modelled from the spec: a duty-status segment of the timeline, with
status, subtype, start and stop times (hours since the nominal day-1 00:00
reference) and a human-readable description. -/
structure DutyEvent where
  status : DutyStatus
  subtype : EventSubtype
  start : ℚ
  stop : ℚ
  description : String
deriving DecidableEq

/-- Modelled from the spec: the immutable route input — total distance (km),
total driving duration (hours) and the three named stop points. -/
structure RouteSegment where
  distance_km : ℚ
  duration_hours : ℚ
  current_location : String
  pickup_location : String
  dropoff_location : String
deriving DecidableEq

/-- Modelled from the spec: the scheduler's mutable state — simulated clock,
the four regulatory counters, the qualifying-break flag and the distance
driven since the last fuel stop. -/
structure SchedulerState where
  clock : ℚ
  drivingHours : ℚ
  windowHours : ℚ
  breakHours : ℚ
  hadBreakSinceReset : Bool
  cycleHours : ℚ
  distSinceFuel : ℚ
deriving DecidableEq

/-- Modelled from the spec: scheduler failure modes. -/
inductive SchedulerError where
  | invalidInputError
  | unreachableScheduleError
deriving DecidableEq

/-- Maximum continuous-driving counter value: 11 hours. -/
def MAX_DRIVING_HOURS : ℚ := 11

/-- Maximum on-duty window counter value: 14 hours. -/
def MAX_WINDOW_HOURS : ℚ := 14

/-- Driving hours after which a 30-minute break is required: 8 hours. -/
def BREAK_THRESHOLD : ℚ := 8

/-- Maximum cycle counter value: 70 hours per 8-day cycle. -/
def MAX_CYCLE_HOURS : ℚ := 70

/-- Minimum qualifying break duration: 30 minutes. -/
def BREAK_DURATION : ℚ := 1 / 2

/-- Minimum daily-reset off-duty duration: 10 hours. -/
def DAILY_RESET_DURATION : ℚ := 10

/-- Minimum cycle-restart off-duty duration: 34 hours. -/
def RESTART_DURATION : ℚ := 34

/-- Fuel-stop interval: 1600 km by policy. -/
def FUEL_INTERVAL_KM : ℚ := 1600

/-- Fixed fuel-stop service duration (policy constant, 30 minutes). -/
def FUEL_DURATION : ℚ := 1 / 2

/-- Fixed pickup/dropoff loading duration (policy constant, 1 hour). -/
def LOADING_DURATION : ℚ := 1

/-- Modelled from the spec: `can_drive(state)` — true iff the driving-limit
counter is below 11 h, the window counter below 14 h, the break condition is
met (break counter below 8 h or a qualifying break since its last reset) and
the cycle counter is below 70 h. -/
def can_drive (s : SchedulerState) : Bool :=
  decide (s.drivingHours < MAX_DRIVING_HOURS) &&
  decide (s.windowHours < MAX_WINDOW_HOURS) &&
  (decide (s.breakHours < BREAK_THRESHOLD) || s.hadBreakSinceReset) &&
  decide (s.cycleHours < MAX_CYCLE_HOURS)

/-- Modelled from the spec: `needs_break(state)` — true iff 8 or more driving
hours have accumulated since the last qualifying break. -/
def needs_break (s : SchedulerState) : Bool :=
  decide (BREAK_THRESHOLD ≤ s.breakHours)

/-- Modelled from the spec: `needs_daily_reset(state)` — true iff the
driving-limit counter has reached 11 h or the window counter 14 h. -/
def needs_daily_reset (s : SchedulerState) : Bool :=
  decide (MAX_DRIVING_HOURS ≤ s.drivingHours) ||
  decide (MAX_WINDOW_HOURS ≤ s.windowHours)

/-- Modelled from the spec: `needs_cycle_restart(state)` — true iff the cycle
counter has reached 70 h. -/
def needs_cycle_restart (s : SchedulerState) : Bool :=
  decide (MAX_CYCLE_HOURS ≤ s.cycleHours)

/-- Modelled from the spec: average driving speed implied by the route input
(km per hour), used to convert the fuel-distance bound into hours. -/
def speed (r : RouteSegment) : ℚ :=
  r.distance_km / r.duration_hours

/-- Modelled from the spec: the largest driving increment that violates no
limit — the minimum of the remaining driving time, the hours to each counter
threshold and the hours to the next fuel-stop boundary. -/
def driveIncrement (r : RouteSegment) (s : SchedulerState) (remaining : ℚ) : ℚ :=
  min remaining <|
    min (MAX_DRIVING_HOURS - s.drivingHours) <|
      min (MAX_WINDOW_HOURS - s.windowHours) <|
        min (BREAK_THRESHOLD - s.breakHours) <|
          min (MAX_CYCLE_HOURS - s.cycleHours)
            ((FUEL_INTERVAL_KM - s.distSinceFuel) / speed r)

/-- Modelled from the spec: advance the state by a driving increment — clock
and all four counters accrue, and distance-since-fuel grows by the distance
covered. -/
def advanceDriving (r : RouteSegment) (s : SchedulerState) (inc : ℚ) : SchedulerState :=
  { s with
    clock := s.clock + inc
    drivingHours := s.drivingHours + inc
    windowHours := s.windowHours + inc
    breakHours := s.breakHours + inc
    cycleHours := s.cycleHours + inc
    distSinceFuel := s.distSinceFuel + inc * speed r }

/-- Modelled from the spec: an on-duty-not-driving period consumes the window
and cycle counters but not the driving-limit or break counters. -/
def applyOnDuty (s : SchedulerState) (d : ℚ) : SchedulerState :=
  { s with
    clock := s.clock + d
    windowHours := s.windowHours + d
    cycleHours := s.cycleHours + d }

/-- Modelled from the spec: a 30-minute qualifying break resets the break
counter; the break is off duty, so no other counter accrues. -/
def applyBreak (s : SchedulerState) : SchedulerState :=
  { s with
    clock := s.clock + BREAK_DURATION
    breakHours := 0
    hadBreakSinceReset := true }

/-- Modelled from the spec: a 10-hour daily reset zeroes the driving-limit,
window and break counters; the cycle counter is untouched. -/
def applyDailyReset (s : SchedulerState) : SchedulerState :=
  { s with
    clock := s.clock + DAILY_RESET_DURATION
    drivingHours := 0
    windowHours := 0
    breakHours := 0
    hadBreakSinceReset := false }

/-- Modelled from the spec: a 34-hour restart zeroes the cycle counter, and —
subsuming the shorter rests — the daily counters as well. -/
def applyRestart (s : SchedulerState) : SchedulerState :=
  { s with
    clock := s.clock + RESTART_DURATION
    drivingHours := 0
    windowHours := 0
    breakHours := 0
    hadBreakSinceReset := false
    cycleHours := 0 }

/-- The events emitted by one simulation step, the successor state, and the
driving time still to be covered. -/
structure StepResult where
  events : List DutyEvent
  state : SchedulerState
  remaining : ℚ
deriving DecidableEq

/-- Modelled from the spec: one iteration of the timeline builder.  Rules are
evaluated in priority order restart, daily reset, break; otherwise the largest
safe driving increment is emitted, followed immediately by a fuel stop when
the cumulative distance reaches the fuel interval. -/
def step (r : RouteSegment) (s : SchedulerState) (remaining : ℚ) : StepResult :=
  if needs_cycle_restart s then
    ⟨[⟨.OffDuty, .restart, s.clock, s.clock + RESTART_DURATION, "34-hour cycle restart"⟩],
      applyRestart s, remaining⟩
  else if needs_daily_reset s then
    ⟨[⟨.OffDuty, .off_duty, s.clock, s.clock + DAILY_RESET_DURATION, "10-hour daily reset"⟩],
      applyDailyReset s, remaining⟩
  else if needs_break s then
    ⟨[⟨.OffDuty, .brk, s.clock, s.clock + BREAK_DURATION, "30-minute break"⟩],
      applyBreak s, remaining⟩
  else
    let inc := driveIncrement r s remaining
    let sd := advanceDriving r s inc
    let drivingEv : DutyEvent := ⟨.Driving, .driving, s.clock, sd.clock, "Driving"⟩
    if FUEL_INTERVAL_KM ≤ sd.distSinceFuel then
      ⟨[drivingEv, ⟨.OnDutyNotDriving, .fuel, sd.clock, sd.clock + FUEL_DURATION, "Fuel stop"⟩],
        { applyOnDuty sd FUEL_DURATION with distSinceFuel := 0 }, remaining - inc⟩
    else
      ⟨[drivingEv], sd, remaining - inc⟩

/-- Modelled from the spec: the driving loop — repeat `step` until the
remaining driving duration reaches zero.  A generous iteration budget stands
in for the defensive `UnreachableScheduleError`: exhausting it means the
simulation failed to make forward progress. -/
def runLoop (r : RouteSegment) :
    Nat → SchedulerState → ℚ → Except SchedulerError (List DutyEvent × SchedulerState)
  | 0, _, _ => .error .unreachableScheduleError
  | n + 1, s, remaining =>
    if remaining ≤ 0 then .ok ([], s)
    else
      let res := step r s remaining
      match runLoop r n res.state res.remaining with
      | .ok (evs, sF) => .ok (res.events ++ evs, sF)
      | .error e => .error e

/-- Modelled from the spec: the three stop locations must be pairwise
distinct (no drivable leg otherwise). -/
def locationsDistinct (r : RouteSegment) : Bool :=
  decide (r.current_location ≠ r.pickup_location) &&
  decide (r.pickup_location ≠ r.dropoff_location) &&
  decide (r.current_location ≠ r.dropoff_location)

/-- Modelled from the spec: input validation — cycle-hours-used inside
[0, 70], pairwise-distinct locations, positive distance and duration. -/
def validInput (r : RouteSegment) (cycleUsed : ℚ) : Bool :=
  decide (0 ≤ cycleUsed) && decide (cycleUsed ≤ MAX_CYCLE_HOURS) &&
  locationsDistinct r &&
  decide (0 < r.distance_km) && decide (0 < r.duration_hours)

/-- Modelled from the spec: initial state — clock at the nominal reference,
all counters zero except the cycle counter seeded from the caller input. -/
def initState (cycleUsed : ℚ) : SchedulerState :=
  ⟨0, 0, 0, 0, false, cycleUsed, 0⟩

/-- Iteration budget for the driving loop, ample for any trip duration. -/
def iterationBudget (r : RouteSegment) : Nat :=
  1000 + 10 * r.duration_hours.ceil.toNat

/-- Modelled from the spec: the fixed-duration loading event at trip start. -/
def tripStartEvent : DutyEvent :=
  ⟨.OnDutyNotDriving, .on_duty, 0, LOADING_DURATION, "Trip start and pickup loading"⟩

/-- Modelled from the spec: the fixed-duration unloading event at dropoff,
starting at simulated time `t`. -/
def dropoffEvent (t : ℚ) : DutyEvent :=
  ⟨.OnDutyNotDriving, .on_duty, t, t + LOADING_DURATION, "Dropoff unloading"⟩

/-- Modelled from the spec: the full scheduler.  Validate the input, emit the
trip-start loading event, run the driving loop, then emit the dropoff
unloading event. -/
def schedule (r : RouteSegment) (cycleUsed : ℚ) :
    Except SchedulerError (List DutyEvent) :=
  if validInput r cycleUsed then
    let s1 := applyOnDuty (initState cycleUsed) LOADING_DURATION
    match runLoop r (iterationBudget r) s1 r.duration_hours with
    | .error e => .error e
    | .ok (evs, s2) => .ok (tripStartEvent :: evs ++ [dropoffEvent s2.clock])
  else
    .error .invalidInputError

/-- Sum of the durations (stop minus start) of a list of events. -/
def sumDurations (evs : List DutyEvent) : ℚ :=
  (evs.map fun e => e.stop - e.start).sum

/-- First event's start time (0 for the empty list). -/
def headStart : List DutyEvent → ℚ
  | [] => 0
  | e :: _ => e.start

/-- Last event's stop time (0 for the empty list). -/
def lastStop : List DutyEvent → ℚ
  | [] => 0
  | [e] => e.stop
  | _ :: e :: es => lastStop (e :: es)

/-- Executable contiguity check: every adjacent pair of events satisfies
`event[i].stop = event[i+1].start`. -/
def contiguousPairs : List DutyEvent → Bool
  | [] => true
  | [_] => true
  | e1 :: e2 :: es => decide (e1.stop = e2.start) && contiguousPairs (e2 :: es)

/-- The events form an unbroken chain from time `a` to time `b`. -/
def contiguousFrom : ℚ → List DutyEvent → ℚ → Prop
  | a, [], b => a = b
  | a, e :: es, b => e.start = a ∧ contiguousFrom e.stop es b

/-- Modelled from the spec: total driving hours of a list of events — the sum
of the `Driving` segment durations. -/
def drivingHoursOf (evs : List DutyEvent) : ℚ :=
  sumDurations (evs.filter fun e => decide (e.status = DutyStatus.Driving))

/-- Modelled from the spec: total on-duty hours of a list of events — the sum
of `Driving` and `OnDutyNotDriving` segment durations. -/
def onDutyHoursOf (evs : List DutyEvent) : ℚ :=
  sumDurations (evs.filter fun e =>
    decide (e.status = DutyStatus.Driving) || decide (e.status = DutyStatus.OnDutyNotDriving))

/-- Clamp a time into the window `[a, b]`. -/
def clipQ (a b x : ℚ) : ℚ := min b (max a x)

/-- Modelled from the spec: the portion of an event falling inside the day
window `[a, b]` — splitting an event that spans a day boundary into one piece
per day amounts to clamping its endpoints into each day's window. -/
def clipEvent (a b : ℚ) (e : DutyEvent) : DutyEvent :=
  { e with start := clipQ a b e.start, stop := clipQ a b e.stop }

/-- Modelled from the spec: number of calendar-day buckets — one per started
24-hour period of the simulated trip. -/
def numDays (T : ℚ) : Nat := (T / 24).ceil.toNat

/-- Modelled from the spec: the events of day bucket `k` — every event
clipped to the day's 24-hour window (discarding pieces of zero width), padded
with a trailing `OffDuty` event so the day is covered through its end. -/
def dayWindowEvents (evs : List DutyEvent) (T : ℚ) (k : Nat) : List DutyEvent :=
  let a : ℚ := 24 * k
  let b : ℚ := a + 24
  let clipped := (evs.map (clipEvent a b)).filter fun e => decide (e.start < e.stop)
  let covEnd := clipQ a b T
  clipped ++ (if covEnd < b then [⟨.OffDuty, .off_duty, covEnd, b, "Off duty"⟩] else [])

/-- Modelled from the spec: one calendar-day log sheet, rebuilt wholesale
from the event timeline. -/
structure DaySheet where
  dayIndex : Nat
  events : List DutyEvent
  total_driving_hours : ℚ
  total_on_duty_hours : ℚ
deriving DecidableEq

/-- Modelled from the spec: the Daily Aggregator — partition the finalized
timeline into calendar-day buckets of 24 simulated hours each. -/
def daySheets (evs : List DutyEvent) : List DaySheet :=
  let T := lastStop evs
  (List.range (numDays T)).map fun k =>
    let des := dayWindowEvents evs T k
    ⟨k, des, drivingHoursOf des, onDutyHoursOf des⟩

/-- The renderer's four duty-status rows, in grid order (`STATUS_ROWS` in
`LogSheet`): key and display label. -/
def STATUS_ROWS : List (String × String) :=
  [("off_duty", "Off Duty"), ("sleeper", "Sleeper"), ("driving", "Driving"), ("on_duty", "On Duty")]

/-- The renderer's mapping from event subtype to row index (`TYPE_TO_ROW` in
`LogSheet`): breaks and restarts draw on the Off Duty row, fuel stops on the
On Duty row. -/
def TYPE_TO_ROW : EventSubtype → Nat
  | .off_duty => 0
  | .sleeper => 1
  | .driving => 2
  | .on_duty => 3
  | .brk => 0
  | .fuel => 3
  | .restart => 0

/-- Display label of the row an event subtype is drawn on. -/
def rowLabel (t : EventSubtype) : String :=
  (STATUS_ROWS.getD (TYPE_TO_ROW t) ("", "")).2

/-- The trip form's state (`TripForm` in the frontend): three location text
fields and the cycle-hours-used number input, `none` standing for the empty
input string. -/
structure TripFormData where
  current_location : String
  pickup_location : String
  dropoff_location : String
  current_cycle_used : Option ℚ
deriving DecidableEq

/-- The whitespace-trimmed character list of a string — the JavaScript
`trim()` removes whitespace from both ends. -/
def trimChars (s : String) : List Char :=
  ((s.data.dropWhile Char.isWhitespace).reverse.dropWhile Char.isWhitespace).reverse

/-- Trimmed, case-folded location text as compared by the form's validator —
the JavaScript `trim().toLowerCase()`. -/
def normalizeLoc (s : String) : String :=
  String.mk ((trimChars s).map Char.toLower)

/-- The trip form's `validate` function: each field must be non-empty after
trimming, cycle-used must be present and within [0, 70], the current location
must differ from the pickup and the pickup from the dropoff (both compared
trimmed and lower-cased); the submission is accepted iff no error is set.
The source never compares the current location with the dropoff. -/
def tripFormValidate (f : TripFormData) : Bool :=
  let errCurrentLoc := decide (trimChars f.current_location = [])
  let errPickupEmpty := decide (trimChars f.pickup_location = [])
  let errDropoffEmpty := decide (trimChars f.dropoff_location = [])
  let errCycle :=
    match f.current_cycle_used with
    | none => true
    | some q => decide (q < 0) || decide (70 < q)
  let errPickupSame := decide (normalizeLoc f.current_location = normalizeLoc f.pickup_location)
  let errDropoffSame := decide (normalizeLoc f.pickup_location = normalizeLoc f.dropoff_location)
  !(errCurrentLoc || errPickupEmpty || errDropoffEmpty || errCycle || errPickupSame || errDropoffSame)

/-- The driving and on-duty accrual of the timeline prefix strictly before
the first restart event. -/
def accrualBeforeRestart (evs : List DutyEvent) : ℚ :=
  onDutyHoursOf (evs.takeWhile fun e => decide (e.subtype ≠ EventSubtype.restart))

/-- A small concrete route: 100 km driven in 2 hours. -/
def rDemo : RouteSegment := ⟨100, 2, "Bengaluru", "Chennai", "Mumbai"⟩

/-- A long concrete route that crosses the 1600 km fuel interval. -/
def rFuel : RouteSegment := ⟨1700, 17, "Bengaluru", "Chennai", "Mumbai"⟩

/-- The timeline the scheduler produces for `rDemo` with 0 cycle hours. -/
def demoTimeline : List DutyEvent :=
  [⟨.OnDutyNotDriving, .on_duty, 0, 1, "Trip start and pickup loading"⟩,
   ⟨.Driving, .driving, 1, 3, "Driving"⟩,
   ⟨.OnDutyNotDriving, .on_duty, 3, 4, "Dropoff unloading"⟩]

/-- The timeline the scheduler produces for `rDemo` with 69.5 cycle hours:
the initial loading pushes the cycle counter to 70.5 before the restart. -/
def nearCapTimeline : List DutyEvent :=
  [⟨.OnDutyNotDriving, .on_duty, 0, 1, "Trip start and pickup loading"⟩,
   ⟨.OffDuty, .restart, 1, 35, "34-hour cycle restart"⟩,
   ⟨.Driving, .driving, 35, 37, "Driving"⟩,
   ⟨.OnDutyNotDriving, .on_duty, 37, 38, "Dropoff unloading"⟩]

/-- A state in which both the daily-reset condition and the cycle-restart
condition hold simultaneously. -/
def stateBothDue : SchedulerState := ⟨0, 11, 0, 0, false, 70, 0⟩

/-- A state in which only the daily-reset condition holds. -/
def stateDailyDue : SchedulerState := ⟨20, 11, 12, 5, false, 30, 200⟩

/-- A state in which the cycle-restart condition holds. -/
def stateRestartDue : SchedulerState := ⟨10, 3, 5, 2, false, 70, 100⟩

/-- A state 100 km short of the fuel interval on the `rFuel` route
(100 km/h), so the next driving increment is capped at one hour. -/
def stateFuelDue : SchedulerState := ⟨10, 0, 0, 0, false, 10, 1500⟩

/-- A concrete form submission whose current and dropoff locations coincide
while the pickup differs from both. -/
def formDemo : TripFormData := ⟨"Bengaluru", "Chennai", "Bengaluru", some 40⟩

/-- The state reached on the `rDemo` run after the initial loading event. -/
def stateDriveDemo : SchedulerState := ⟨1, 0, 1, 0, false, 1, 0⟩

/-- The single day sheet of the `rDemo` timeline. -/
def demoSheet : DaySheet :=
  ⟨0, demoTimeline ++ [⟨.OffDuty, .off_duty, 4, 24, "Off duty"⟩], 2, 4⟩

theorem contiguousFrom_append {m b : ℚ} {ys : List DutyEvent} :
    ∀ {a : ℚ} {xs : List DutyEvent}, contiguousFrom a xs m → contiguousFrom m ys b →
      contiguousFrom a (xs ++ ys) b := by
  intro a xs
  induction xs generalizing a with
  | nil =>
    intro hx hy
    simp only [contiguousFrom] at hx
    simpa [hx] using hy
  | cons e es ih =>
    intro hx hy
    obtain ⟨h1, h2⟩ := hx
    exact ⟨h1, ih h2 hy⟩

theorem sumDurations_of_contiguousFrom {a b : ℚ} {evs : List DutyEvent}
    (h : contiguousFrom a evs b) : sumDurations evs = b - a := by
  induction evs generalizing a with
  | nil =>
    simp only [contiguousFrom] at h
    simp [sumDurations, h]
  | cons e es ih =>
    obtain ⟨h1, h2⟩ := h
    have := ih h2
    simp only [sumDurations, List.map_cons, List.sum_cons] at this ⊢
    rw [this, h1]
    ring

theorem contiguousPairs_of_contiguousFrom {a b : ℚ} {evs : List DutyEvent}
    (h : contiguousFrom a evs b) : contiguousPairs evs = true := by
  induction evs generalizing a with
  | nil => rfl
  | cons e es ih =>
    cases es with
    | nil => rfl
    | cons e2 es2 =>
      obtain ⟨h1, h2, h3⟩ := h
      simp only [contiguousPairs, Bool.and_eq_true, decide_eq_true_eq]
      exact ⟨h2.symm, ih (a := e.stop) ⟨h2, h3⟩⟩

theorem lastStop_of_contiguousFrom {a b : ℚ} {evs : List DutyEvent}
    (h : contiguousFrom a evs b) (hne : evs ≠ []) : lastStop evs = b := by
  induction evs generalizing a with
  | nil => exact absurd rfl hne
  | cons e es ih =>
    cases es with
    | nil =>
      obtain ⟨h1, h2⟩ := h
      simp only [contiguousFrom] at h2
      simp [lastStop, h2]
    | cons e2 es2 =>
      obtain ⟨h1, h2⟩ := h
      simpa [lastStop] using ih h2 (by simp)

theorem step_contiguousFrom (r : RouteSegment) (s : SchedulerState) (rem : ℚ) :
    contiguousFrom s.clock (step r s rem).events (step r s rem).state.clock := by
  unfold step
  split
  · simp [contiguousFrom, applyRestart]
  · split
    · simp [contiguousFrom, applyDailyReset]
    · split
      · simp [contiguousFrom, applyBreak]
      · dsimp only
        split
        · simp [contiguousFrom, advanceDriving, applyOnDuty]
        · simp [contiguousFrom, advanceDriving]

theorem runLoop_contiguousFrom {r : RouteSegment} :
    ∀ {n : Nat} {s : SchedulerState} {rem : ℚ} {evs : List DutyEvent} {sF : SchedulerState},
      runLoop r n s rem = .ok (evs, sF) → contiguousFrom s.clock evs sF.clock := by
  intro n
  induction n with
  | zero =>
    intro s rem evs sF h
    simp [runLoop] at h
  | succ n ih =>
    intro s rem evs sF h
    rw [runLoop] at h
    dsimp only at h
    split at h
    · obtain ⟨h1, h2⟩ := Prod.mk.injEq .. ▸ Except.ok.inj h
      subst h1; subst h2
      simp [contiguousFrom]
    · split at h
      · next evs0 sF0 heq =>
        obtain ⟨h1, h2⟩ := Prod.mk.injEq .. ▸ Except.ok.inj h
        subst h1; subst h2
        exact contiguousFrom_append (step_contiguousFrom r s rem) (ih heq)
      · exact absurd h (by simp)

theorem schedule_contiguousFrom {r : RouteSegment} {cyc : ℚ} {evs : List DutyEvent}
    (h : schedule r cyc = .ok evs) :
    evs ≠ [] ∧ headStart evs = 0 ∧ contiguousFrom 0 evs (lastStop evs) := by
  unfold schedule at h
  split at h
  · dsimp only at h
    split at h
    · exact absurd h (by simp)
    · next evs0 s2 heq =>
      have h1 : contiguousFrom 0 [tripStartEvent]
          (applyOnDuty (initState cyc) LOADING_DURATION).clock := by
        simp [contiguousFrom, tripStartEvent, applyOnDuty, initState]
      have h2 := runLoop_contiguousFrom heq
      have h3 : contiguousFrom s2.clock [dropoffEvent s2.clock]
          (s2.clock + LOADING_DURATION) := by
        simp [contiguousFrom, dropoffEvent]
      have hall := contiguousFrom_append (contiguousFrom_append h1 h2) h3
      rw [List.singleton_append] at hall
      obtain rfl := (Except.ok.inj h)
      refine ⟨by simp, rfl, ?_⟩
      have hne : ((tripStartEvent :: evs0) ++ [dropoffEvent s2.clock] :
          List DutyEvent) ≠ [] := by simp
      rwa [lastStop_of_contiguousFrom hall hne]
  · exact absurd h (by simp)

theorem schedule_ok_elim {r : RouteSegment} {cyc : ℚ} {evs : List DutyEvent}
    (h : schedule r cyc = .ok evs) :
    validInput r cyc = true ∧
    ∃ evs0 s2,
      runLoop r (iterationBudget r) (applyOnDuty (initState cyc) LOADING_DURATION)
          r.duration_hours = .ok (evs0, s2) ∧
      evs = (tripStartEvent :: evs0) ++ [dropoffEvent s2.clock] := by
  unfold schedule at h
  split at h
  · next hval =>
    dsimp only at h
    split at h
    · exact absurd h (by simp)
    · next evs0 s2 heq =>
      exact ⟨hval, evs0, s2, heq, (Except.ok.inj h).symm⟩
  · exact absurd h (by simp)

theorem runLoop_ne_invalidInput {r : RouteSegment} :
    ∀ {n : Nat} {s : SchedulerState} {rem : ℚ},
      runLoop r n s rem ≠ .error .invalidInputError := by
  intro n
  induction n with
  | zero => intro s rem; simp [runLoop]
  | succ n ih =>
    intro s rem
    rw [runLoop]
    dsimp only
    split
    · simp
    · split
      · simp
      · next e heq =>
        intro hcon
        obtain rfl := Except.error.inj hcon
        exact ih heq

theorem validInput_iff {r : RouteSegment} {cyc : ℚ} :
    validInput r cyc = true ↔
      (0 ≤ cyc ∧ cyc ≤ MAX_CYCLE_HOURS ∧
        r.current_location ≠ r.pickup_location ∧
        r.pickup_location ≠ r.dropoff_location ∧
        r.current_location ≠ r.dropoff_location ∧
        0 < r.distance_km ∧ 0 < r.duration_hours) := by
  simp [validInput, locationsDistinct, and_assoc]

/-- Claim C2: the scheduler fails with `InvalidInputError` exactly when the
cycle-hours-used input lies outside [0, 70], two of the stop locations
coincide, or the distance or duration is non-positive; and whenever a
timeline is produced the input was valid. -/
theorem scheduler_invalid_input_iff :
    (∀ (r : RouteSegment) (cyc : ℚ),
      schedule r cyc = .error .invalidInputError ↔
        (cyc < 0 ∨ MAX_CYCLE_HOURS < cyc ∨
          r.current_location = r.pickup_location ∨
          r.pickup_location = r.dropoff_location ∨
          r.current_location = r.dropoff_location ∨
          r.distance_km ≤ 0 ∨ r.duration_hours ≤ 0)) ∧
    (∀ (r : RouteSegment) (cyc : ℚ) (evs : List DutyEvent),
      schedule r cyc = .ok evs → validInput r cyc = true) := by
  have hneg : ∀ (r : RouteSegment) (cyc : ℚ),
      (cyc < 0 ∨ MAX_CYCLE_HOURS < cyc ∨
        r.current_location = r.pickup_location ∨
        r.pickup_location = r.dropoff_location ∨
        r.current_location = r.dropoff_location ∨
        r.distance_km ≤ 0 ∨ r.duration_hours ≤ 0) ↔
      ¬(0 ≤ cyc ∧ cyc ≤ MAX_CYCLE_HOURS ∧
        r.current_location ≠ r.pickup_location ∧
        r.pickup_location ≠ r.dropoff_location ∧
        r.current_location ≠ r.dropoff_location ∧
        0 < r.distance_km ∧ 0 < r.duration_hours) := by
    intro r cyc
    simp only [not_and_or, not_le, not_lt, not_ne_iff]
  constructor
  · intro r cyc
    by_cases hval : validInput r cyc = true
    · have hnot : schedule r cyc ≠ .error .invalidInputError := by
        unfold schedule
        rw [if_pos hval]
        dsimp only
        split
        · next e heq =>
          intro hcon
          obtain rfl := Except.error.inj hcon
          exact runLoop_ne_invalidInput heq
        · simp
      constructor
      · intro h; exact absurd h hnot
      · intro h
        exact absurd (validInput_iff.mp hval) ((hneg r cyc).mp h)
    · have hsch : schedule r cyc = .error .invalidInputError := by
        unfold schedule
        rw [if_neg hval]
      constructor
      · intro _
        exact (hneg r cyc).mpr fun hconj => hval (validInput_iff.mpr hconj)
      · intro _; exact hsch
  · intro r cyc evs h
    exact (schedule_ok_elim h).1

/-- Witness for claim C2: cycle-hours-used 71 is rejected with
`InvalidInputError`, while the valid demo input passes validation. -/
theorem scheduler_invalid_input_iff_witness :
    (schedule rDemo 71 = .error .invalidInputError ↔
      ((71 : ℚ) < 0 ∨ MAX_CYCLE_HOURS < 71 ∨
        rDemo.current_location = rDemo.pickup_location ∨
        rDemo.pickup_location = rDemo.dropoff_location ∨
        rDemo.current_location = rDemo.dropoff_location ∨
        rDemo.distance_km ≤ 0 ∨ rDemo.duration_hours ≤ 0)) ∧
    validInput rDemo 0 = true :=
  ⟨scheduler_invalid_input_iff.1 rDemo 71,
    scheduler_invalid_input_iff.2 rDemo 0 demoTimeline (by decide)⟩

/-- Claim C3: `can_drive` holds exactly when the driving-limit counter is
strictly below 11 hours, the window counter strictly below 14 hours, the
break counter strictly below 8 hours or a qualifying break has occurred
since its last reset, and the cycle counter strictly below 70 hours. -/
theorem can_drive_iff (s : SchedulerState) :
    can_drive s = true ↔
      (s.drivingHours < MAX_DRIVING_HOURS ∧ s.windowHours < MAX_WINDOW_HOURS ∧
        (s.breakHours < BREAK_THRESHOLD ∨ s.hadBreakSinceReset = true) ∧
        s.cycleHours < MAX_CYCLE_HOURS) := by
  simp [can_drive, and_assoc]

/-- Witness for claim C3 at the freshly initialized state. -/
theorem can_drive_iff_witness :
    can_drive (initState 0) = true ↔
      ((initState 0).drivingHours < MAX_DRIVING_HOURS ∧
        (initState 0).windowHours < MAX_WINDOW_HOURS ∧
        ((initState 0).breakHours < BREAK_THRESHOLD ∨
          (initState 0).hadBreakSinceReset = true) ∧
        (initState 0).cycleHours < MAX_CYCLE_HOURS) :=
  can_drive_iff (initState 0)

/-- Claim C8: the scheduler is deterministic — two runs on identical
RouteSegment and cycle-hours-used inputs produce identical timelines. -/
theorem scheduler_deterministic (r1 r2 : RouteSegment) (c1 c2 : ℚ)
    (hr : r1 = r2) (hc : c1 = c2) : schedule r1 c1 = schedule r2 c2 := by
  rw [hr, hc]

/-- Witness for claim C8 at the concrete demo input. -/
theorem scheduler_deterministic_witness : schedule rDemo 0 = schedule rDemo 0 :=
  scheduler_deterministic rDemo rDemo 0 0 rfl rfl

/-- Claim C9: the log-sheet renderer draws `break` and `restart` events on
the Off Duty row, `fuel` events on the On Duty row, and the four plain
subtypes on their like-named rows. -/
theorem renderer_row_classification :
    rowLabel EventSubtype.brk = "Off Duty" ∧
    rowLabel EventSubtype.restart = "Off Duty" ∧
    rowLabel EventSubtype.fuel = "On Duty" ∧
    rowLabel EventSubtype.driving = "Driving" ∧
    rowLabel EventSubtype.on_duty = "On Duty" ∧
    rowLabel EventSubtype.off_duty = "Off Duty" ∧
    rowLabel EventSubtype.sleeper = "Sleeper" ∧
    TYPE_TO_ROW EventSubtype.brk = TYPE_TO_ROW EventSubtype.off_duty ∧
    TYPE_TO_ROW EventSubtype.restart = TYPE_TO_ROW EventSubtype.off_duty ∧
    TYPE_TO_ROW EventSubtype.fuel = TYPE_TO_ROW EventSubtype.on_duty := by
  decide

/-- Claim C10: the trip form's validator accepts a submission whose current
and dropoff locations coincide after trimming and case-folding, provided the
pickup differs from both, all three fields are non-empty and cycle-used is
within [0, 70] — the source compares current with pickup and pickup with
dropoff but never current with dropoff. -/
theorem tripForm_accepts_current_equals_dropoff
    (f : TripFormData) (q : ℚ)
    (hq : f.current_cycle_used = some q) (h0 : 0 ≤ q) (h70 : q ≤ 70)
    (hc : trimChars f.current_location ≠ [])
    (hp : trimChars f.pickup_location ≠ [])
    (hd : trimChars f.dropoff_location ≠ [])
    (_hcd : normalizeLoc f.current_location = normalizeLoc f.dropoff_location)
    (hcp : normalizeLoc f.current_location ≠ normalizeLoc f.pickup_location)
    (hpd : normalizeLoc f.pickup_location ≠ normalizeLoc f.dropoff_location) :
    tripFormValidate f = true := by
  simp [tripFormValidate, hq, hc, hp, hd, hcp, hpd, not_lt.mpr h0, not_lt.mpr h70]

/-- Witness for claim C10: the concrete submission
(Bengaluru, Chennai, Bengaluru, 40) passes client validation. -/
theorem tripForm_accepts_current_equals_dropoff_witness :
    tripFormValidate formDemo = true :=
  tripForm_accepts_current_equals_dropoff formDemo 40 (by decide) (by decide)
    (by decide) (by decide) (by decide) (by decide) (by decide) (by decide)
    (by decide)

/-- Claim C1: every timeline the scheduler generates is time-contiguous and
non-overlapping — each event's stop equals the next event's start — it starts
at the simulated time origin, and the sum of all event durations equals the
total elapsed simulated trip time (last stop minus first start). -/
theorem scheduler_timeline_contiguous (r : RouteSegment) (cyc : ℚ) (evs : List DutyEvent)
    (h : schedule r cyc = .ok evs) :
    contiguousPairs evs = true ∧ headStart evs = 0 ∧
      sumDurations evs = lastStop evs - headStart evs := by
  obtain ⟨hne, hhead, hfrom⟩ := schedule_contiguousFrom h
  refine ⟨contiguousPairs_of_contiguousFrom hfrom, hhead, ?_⟩
  rw [sumDurations_of_contiguousFrom hfrom, hhead]

/-- Witness for claim C1 at the concrete route `rDemo` with 0 cycle hours. -/
theorem scheduler_timeline_contiguous_witness :
    contiguousPairs demoTimeline = true ∧ headStart demoTimeline = 0 ∧
      sumDurations demoTimeline = lastStop demoTimeline - headStart demoTimeline :=
  scheduler_timeline_contiguous rDemo 0 demoTimeline (by decide)

/-- Counterexample to claim C4 as stated: in a state where the driving-limit
counter has reached 11 hours but the cycle counter has simultaneously reached
70 hours, the scheduler emits the restart instead, after which the cycle
counter is 0 rather than its prior value of 70. -/
theorem daily_reset_cycle_retained_counterexample :
    needs_daily_reset stateBothDue = true ∧
    stateBothDue.cycleHours = 70 ∧
    (step rDemo stateBothDue 5).state.cycleHours = 0 ∧
    (step rDemo stateBothDue 5).state.cycleHours ≠ stateBothDue.cycleHours := by
  decide

/-- Claim C4 (amended): whenever the daily-reset condition holds and no cycle
restart is simultaneously due, the scheduler emits a 10-hour `OffDuty` event,
after which the driving-limit, window and break counters are zero while the
cycle counter retains its prior value. -/
theorem daily_reset_behavior (r : RouteSegment) (s : SchedulerState) (rem : ℚ)
    (hres : needs_cycle_restart s = false) (hdaily : needs_daily_reset s = true) :
    (step r s rem).events =
      [⟨DutyStatus.OffDuty, EventSubtype.off_duty, s.clock,
        s.clock + DAILY_RESET_DURATION, "10-hour daily reset"⟩] ∧
    DAILY_RESET_DURATION = 10 ∧
    (step r s rem).state.drivingHours = 0 ∧
    (step r s rem).state.windowHours = 0 ∧
    (step r s rem).state.breakHours = 0 ∧
    (step r s rem).state.cycleHours = s.cycleHours := by
  unfold step
  rw [if_neg (by simp [hres]), if_pos hdaily]
  exact ⟨rfl, rfl, rfl, rfl, rfl, rfl⟩

/-- Witness for claim C4 at a concrete state with the driving counter at 11
hours and the cycle counter at 30 hours. -/
theorem daily_reset_behavior_witness :
    (step rDemo stateDailyDue 5).events =
      [⟨DutyStatus.OffDuty, EventSubtype.off_duty, stateDailyDue.clock,
        stateDailyDue.clock + DAILY_RESET_DURATION, "10-hour daily reset"⟩] ∧
    DAILY_RESET_DURATION = 10 ∧
    (step rDemo stateDailyDue 5).state.drivingHours = 0 ∧
    (step rDemo stateDailyDue 5).state.windowHours = 0 ∧
    (step rDemo stateDailyDue 5).state.breakHours = 0 ∧
    (step rDemo stateDailyDue 5).state.cycleHours = stateDailyDue.cycleHours :=
  daily_reset_behavior rDemo stateDailyDue 5 (by decide) (by decide)

theorem step_restart_duration (r : RouteSegment) (s : SchedulerState) (rem : ℚ) :
    ∀ ev ∈ (step r s rem).events, ev.subtype = EventSubtype.restart →
      ev.stop - ev.start = RESTART_DURATION := by
  unfold step
  split
  · intro ev hmem hsub
    simp only [List.mem_singleton] at hmem
    subst hmem
    ring
  · split
    · intro ev hmem hsub
      simp only [List.mem_singleton] at hmem
      subst hmem
      simp at hsub
    · split
      · intro ev hmem hsub
        simp only [List.mem_singleton] at hmem
        subst hmem
        simp at hsub
      · dsimp only
        split
        · intro ev hmem hsub
          simp only [List.mem_cons, List.mem_singleton, List.not_mem_nil, or_false] at hmem
          rcases hmem with h1 | h1 <;> (subst h1; simp at hsub)
        · intro ev hmem hsub
          simp only [List.mem_singleton] at hmem
          subst hmem
          simp at hsub

theorem runLoop_restart_duration {r : RouteSegment} :
    ∀ {n : Nat} {s : SchedulerState} {rem : ℚ} {evs : List DutyEvent} {sF : SchedulerState},
      runLoop r n s rem = .ok (evs, sF) →
      ∀ ev ∈ evs, ev.subtype = EventSubtype.restart →
        ev.stop - ev.start = RESTART_DURATION := by
  intro n
  induction n with
  | zero =>
    intro s rem evs sF h
    simp [runLoop] at h
  | succ n ih =>
    intro s rem evs sF h
    rw [runLoop] at h
    dsimp only at h
    split at h
    · obtain ⟨h1, h2⟩ := Prod.mk.injEq .. ▸ Except.ok.inj h
      subst h1
      intro ev hmem
      simp at hmem
    · split at h
      · next evs0 sF0 heq =>
        obtain ⟨h1, h2⟩ := Prod.mk.injEq .. ▸ Except.ok.inj h
        subst h1; subst h2
        intro ev hmem hsub
        rcases List.mem_append.mp hmem with hm | hm
        · exact step_restart_duration r s rem ev hm hsub
        · exact ih heq ev hm hsub
      · exact absurd h (by simp)

/-- Counterexample to claim C5 as stated: with 69.5 cycle hours already used,
the initial one-hour loading event raises cumulative on-duty hours to 70.5
before the restart fires, so on-duty hours accrued before a restart exceed
70. -/
theorem cycle_cap_exceeded_counterexample :
    schedule rDemo (139 / 2) = .ok nearCapTimeline ∧
    nearCapTimeline.any (fun e => decide (e.subtype = EventSubtype.restart)) = true ∧
    MAX_CYCLE_HOURS < 139 / 2 + accrualBeforeRestart nearCapTimeline := by
  decide

/-- Claim C5 (amended): a due cycle restart emits a single 34-hour restart
event and zeroes the cycle counter; driving events are only emitted from
states with the cycle counter strictly below 70; a step never pushes the
cycle counter beyond 70 plus the fixed on-duty loading duration (on-duty
loading/fuel events are emitted without a prior rule check, so the counter
can pass 70 by at most that fixed amount before the restart fires); and every
restart event in a generated timeline lasts exactly 34 hours. -/
theorem cycle_restart_behavior :
    (∀ (r : RouteSegment) (s : SchedulerState) (rem : ℚ),
      needs_cycle_restart s = true →
        (step r s rem).events =
          [⟨DutyStatus.OffDuty, EventSubtype.restart, s.clock,
            s.clock + RESTART_DURATION, "34-hour cycle restart"⟩] ∧
        RESTART_DURATION = 34 ∧ (step r s rem).state.cycleHours = 0) ∧
    (∀ (r : RouteSegment) (s : SchedulerState) (rem : ℚ) (ev : DutyEvent),
      ev ∈ (step r s rem).events → ev.status = DutyStatus.Driving →
        s.cycleHours < MAX_CYCLE_HOURS) ∧
    (∀ (r : RouteSegment) (s : SchedulerState) (rem : ℚ),
      s.cycleHours ≤ MAX_CYCLE_HOURS + LOADING_DURATION →
        (step r s rem).state.cycleHours ≤ MAX_CYCLE_HOURS + LOADING_DURATION) ∧
    (∀ (r : RouteSegment) (cyc : ℚ) (evs : List DutyEvent) (ev : DutyEvent),
      schedule r cyc = .ok evs → ev ∈ evs → ev.subtype = EventSubtype.restart →
        ev.stop - ev.start = RESTART_DURATION) := by
  refine ⟨?_, ?_, ?_, ?_⟩
  · intro r s rem h
    unfold step
    rw [if_pos h]
    exact ⟨rfl, rfl, rfl⟩
  · intro r s rem ev hmem hstatus
    by_cases hres : needs_cycle_restart s = true
    · exfalso
      unfold step at hmem
      rw [if_pos hres] at hmem
      simp only [List.mem_singleton] at hmem
      subst hmem
      simp at hstatus
    · have hres' : needs_cycle_restart s = false := by
        simpa using hres
      simpa [needs_cycle_restart, not_le] using hres'
  · intro r s rem h
    unfold step
    split
    · simp only [applyRestart]
      simp only [MAX_CYCLE_HOURS, LOADING_DURATION]
      norm_num
    · split
      · simpa [applyDailyReset] using h
      · split
        · simpa [applyBreak] using h
        · next hres hdaily hbrk =>
          have hcyc : s.cycleHours < MAX_CYCLE_HOURS := by
            have hres' : needs_cycle_restart s = false := by simpa using hres
            simpa [needs_cycle_restart, not_le] using hres'
          have hinc : driveIncrement r s rem ≤ MAX_CYCLE_HOURS - s.cycleHours := by
            unfold driveIncrement
            exact le_trans (min_le_right _ _) (le_trans (min_le_right _ _)
              (le_trans (min_le_right _ _) (le_trans (min_le_right _ _) (min_le_left _ _))))
          dsimp only
          split
          · simp only [applyOnDuty, advanceDriving]
            simp only [MAX_CYCLE_HOURS, LOADING_DURATION, FUEL_DURATION] at hcyc hinc ⊢
            linarith
          · simp only [advanceDriving]
            simp only [MAX_CYCLE_HOURS, LOADING_DURATION] at hcyc hinc ⊢
            linarith
  · intro r cyc evs ev h hmem hsub
    obtain ⟨hval, evs0, s2, heq, rfl⟩ := schedule_ok_elim h
    rcases List.mem_append.mp hmem with hm | hm
    · rcases List.mem_cons.mp hm with hm1 | hm1
      · subst hm1
        simp [tripStartEvent] at hsub
      · exact runLoop_restart_duration heq ev hm1 hsub
    · simp only [List.mem_singleton] at hm
      subst hm
      simp [dropoffEvent] at hsub

/-- Witness for claim C5 at concrete states and the concrete near-cap run. -/
theorem cycle_restart_behavior_witness :
    ((step rDemo stateRestartDue 5).events =
      [⟨DutyStatus.OffDuty, EventSubtype.restart, stateRestartDue.clock,
        stateRestartDue.clock + RESTART_DURATION, "34-hour cycle restart"⟩] ∧
      RESTART_DURATION = 34 ∧ (step rDemo stateRestartDue 5).state.cycleHours = 0) ∧
    stateDriveDemo.cycleHours < MAX_CYCLE_HOURS ∧
    (step rDemo stateDriveDemo 2).state.cycleHours ≤ MAX_CYCLE_HOURS + LOADING_DURATION ∧
    (⟨DutyStatus.OffDuty, EventSubtype.restart, 1, 35,
      "34-hour cycle restart"⟩ : DutyEvent).stop -
      (⟨DutyStatus.OffDuty, EventSubtype.restart, 1, 35,
        "34-hour cycle restart"⟩ : DutyEvent).start = RESTART_DURATION :=
  ⟨cycle_restart_behavior.1 rDemo stateRestartDue 5 (by decide),
   cycle_restart_behavior.2.1 rDemo stateDriveDemo 2
     ⟨DutyStatus.Driving, EventSubtype.driving, 1, 3, "Driving"⟩ (by decide) (by decide),
   cycle_restart_behavior.2.2.1 rDemo stateDriveDemo 2 (by decide),
   cycle_restart_behavior.2.2.2 rDemo (139 / 2) nearCapTimeline
     ⟨DutyStatus.OffDuty, EventSubtype.restart, 1, 35, "34-hour cycle restart"⟩
     (by decide) (by decide) (by decide)⟩

theorem step_fuel_free {r : RouteSegment} {s : SchedulerState} {rem : ℚ}
    (hsp : 0 ≤ speed r)
    (hinv : s.distSinceFuel + rem * speed r < FUEL_INTERVAL_KM) :
    (∀ e ∈ (step r s rem).events, e.subtype ≠ EventSubtype.fuel) ∧
    (step r s rem).state.distSinceFuel + (step r s rem).remaining * speed r <
      FUEL_INTERVAL_KM := by
  unfold step
  split
  · constructor
    · intro e hmem
      simp only [List.mem_singleton] at hmem
      subst hmem
      simp
    · simpa [applyRestart] using hinv
  · split
    · constructor
      · intro e hmem
        simp only [List.mem_singleton] at hmem
        subst hmem
        simp
      · simpa [applyDailyReset] using hinv
    · split
      · constructor
        · intro e hmem
          simp only [List.mem_singleton] at hmem
          subst hmem
          simp
        · simpa [applyBreak] using hinv
      · dsimp only
        have hinc_le_rem : driveIncrement r s rem ≤ rem := min_le_left _ _
        have hlt : s.distSinceFuel + driveIncrement r s rem * speed r <
            FUEL_INTERVAL_KM := by
          have hmul := mul_le_mul_of_nonneg_right hinc_le_rem hsp
          linarith
        split
        · next hfuel =>
          exfalso
          simp only [advanceDriving] at hfuel
          exact absurd hfuel (not_le.mpr hlt)
        · constructor
          · intro e hmem
            simp only [List.mem_singleton] at hmem
            subst hmem
            simp
          · simp only [advanceDriving]
            have heq : s.distSinceFuel + driveIncrement r s rem * speed r +
                (rem - driveIncrement r s rem) * speed r =
                s.distSinceFuel + rem * speed r := by ring
            rw [heq]
            exact hinv

theorem runLoop_fuel_free {r : RouteSegment} (hsp : 0 ≤ speed r) :
    ∀ {n : Nat} {s : SchedulerState} {rem : ℚ} {evs : List DutyEvent} {sF : SchedulerState},
      runLoop r n s rem = .ok (evs, sF) →
      s.distSinceFuel + rem * speed r < FUEL_INTERVAL_KM →
      ∀ e ∈ evs, e.subtype ≠ EventSubtype.fuel := by
  intro n
  induction n with
  | zero =>
    intro s rem evs sF h
    simp [runLoop] at h
  | succ n ih =>
    intro s rem evs sF h hinv
    rw [runLoop] at h
    dsimp only at h
    split at h
    · obtain ⟨h1, h2⟩ := Prod.mk.injEq .. ▸ Except.ok.inj h
      subst h1
      intro e hmem
      simp at hmem
    · split at h
      · next evs0 sF0 heq =>
        obtain ⟨h1, h2⟩ := Prod.mk.injEq .. ▸ Except.ok.inj h
        subst h1; subst h2
        intro e hmem
        rcases List.mem_append.mp hmem with hm | hm
        · exact (step_fuel_free hsp hinv).1 e hm
        · exact ih heq (step_fuel_free hsp hinv).2 e hm
      · exact absurd h (by simp)

/-- Claim C7: when a driving increment brings the cumulative distance since
the last fuel stop to the 1600 km interval, the step emits exactly the capped
driving event followed by a fixed-duration fuel event — the stop falls
exactly on the interval boundary and the distance counter resets — and a trip
whose total distance is below 1600 km contains no fuel event at all. -/
theorem fuel_stop_behavior :
    (∀ (r : RouteSegment) (s : SchedulerState) (rem : ℚ) (e : DutyEvent),
      0 < speed r → e ∈ (step r s rem).events → e.subtype = EventSubtype.fuel →
        (step r s rem).events =
          [⟨DutyStatus.Driving, EventSubtype.driving, s.clock,
            s.clock + driveIncrement r s rem, "Driving"⟩, e] ∧
        e.start = s.clock + driveIncrement r s rem ∧
        e.stop - e.start = FUEL_DURATION ∧
        s.distSinceFuel + driveIncrement r s rem * speed r = FUEL_INTERVAL_KM ∧
        (step r s rem).state.distSinceFuel = 0) ∧
    (∀ (r : RouteSegment) (cyc : ℚ) (evs : List DutyEvent),
      schedule r cyc = .ok evs → r.distance_km < FUEL_INTERVAL_KM →
        ∀ e ∈ evs, e.subtype ≠ EventSubtype.fuel) := by
  constructor
  · intro r s rem e hsp hmem hsub
    unfold step at hmem ⊢
    split at hmem
    · next h1 =>
      exfalso
      simp only [List.mem_singleton] at hmem
      subst hmem
      simp at hsub
    · split at hmem
      · next h2 =>
        exfalso
        simp only [List.mem_singleton] at hmem
        subst hmem
        simp at hsub
      · split at hmem
        · next h3 =>
          exfalso
          simp only [List.mem_singleton] at hmem
          subst hmem
          simp at hsub
        · next h1 h2 h3 =>
          rw [if_neg h1, if_neg h2, if_neg h3]
          dsimp only at hmem ⊢
          split at hmem
          · next hfuel =>
            rw [if_pos hfuel]
            simp only [advanceDriving] at hmem hfuel
            dsimp only [advanceDriving]
            rcases List.mem_cons.mp hmem with hm1 | hm1
            · exfalso
              subst hm1
              simp at hsub
            · simp only [List.mem_singleton] at hm1
              subst hm1
              have hub : driveIncrement r s rem ≤
                  (FUEL_INTERVAL_KM - s.distSinceFuel) / speed r := by
                unfold driveIncrement
                exact le_trans (min_le_right _ _) (le_trans (min_le_right _ _)
                  (le_trans (min_le_right _ _) (le_trans (min_le_right _ _)
                    (min_le_right _ _))))
              have hmul : driveIncrement r s rem * speed r ≤
                  FUEL_INTERVAL_KM - s.distSinceFuel :=
                (le_div_iff₀ hsp).mp hub
              refine ⟨rfl, rfl, by ring, le_antisymm (by linarith) hfuel, rfl⟩
          · next hfuel =>
            exfalso
            simp only [List.mem_singleton] at hmem
            subst hmem
            simp at hsub
  · intro r cyc evs h hdist e hmem
    obtain ⟨hval, evs0, s2, heq, rfl⟩ := schedule_ok_elim h
    obtain ⟨hc0, hc70, hl1, hl2, hl3, hd, ht⟩ := validInput_iff.mp hval
    have hsp : 0 ≤ speed r := by
      rw [speed]
      exact le_of_lt (div_pos hd ht)
    have hdd : r.duration_hours * speed r = r.distance_km := by
      rw [speed]
      field_simp
    have hinv : (applyOnDuty (initState cyc) LOADING_DURATION).distSinceFuel +
        r.duration_hours * speed r < FUEL_INTERVAL_KM := by
      simp only [applyOnDuty, initState]
      rw [hdd]
      simpa using hdist
    rcases List.mem_append.mp hmem with hm | hm
    · rcases List.mem_cons.mp hm with hm1 | hm1
      · subst hm1
        simp [tripStartEvent]
      · exact runLoop_fuel_free hsp heq hinv e hm1
    · simp only [List.mem_singleton] at hm
      subst hm
      simp [dropoffEvent]

/-- Witness for claim C7: on the 1700 km route the step from 1500 km since
the last fuel stop caps driving at one hour and emits the fuel event exactly
at 1600 km, and the 100 km demo trip has no fuel event. -/
theorem fuel_stop_behavior_witness :
    ((step rFuel stateFuelDue 7).events =
      [⟨DutyStatus.Driving, EventSubtype.driving, stateFuelDue.clock,
        stateFuelDue.clock + driveIncrement rFuel stateFuelDue 7, "Driving"⟩,
       ⟨DutyStatus.OnDutyNotDriving, EventSubtype.fuel, 11, 23 / 2, "Fuel stop"⟩] ∧
      (⟨DutyStatus.OnDutyNotDriving, EventSubtype.fuel, 11, 23 / 2,
        "Fuel stop"⟩ : DutyEvent).start =
        stateFuelDue.clock + driveIncrement rFuel stateFuelDue 7 ∧
      (⟨DutyStatus.OnDutyNotDriving, EventSubtype.fuel, 11, 23 / 2,
        "Fuel stop"⟩ : DutyEvent).stop -
        (⟨DutyStatus.OnDutyNotDriving, EventSubtype.fuel, 11, 23 / 2,
          "Fuel stop"⟩ : DutyEvent).start = FUEL_DURATION ∧
      stateFuelDue.distSinceFuel +
        driveIncrement rFuel stateFuelDue 7 * speed rFuel = FUEL_INTERVAL_KM ∧
      (step rFuel stateFuelDue 7).state.distSinceFuel = 0) ∧
    (⟨DutyStatus.Driving, EventSubtype.driving, 1, 3,
      "Driving"⟩ : DutyEvent).subtype ≠ EventSubtype.fuel :=
  ⟨fuel_stop_behavior.1 rFuel stateFuelDue 7
      ⟨DutyStatus.OnDutyNotDriving, EventSubtype.fuel, 11, 23 / 2, "Fuel stop"⟩
      (by decide) (by decide) (by decide),
   fuel_stop_behavior.2 rDemo 0 demoTimeline (by decide) (by decide)
      ⟨DutyStatus.Driving, EventSubtype.driving, 1, 3, "Driving"⟩ (by decide)⟩

theorem runLoop_events_wf {r : RouteSegment} (hsp : 0 ≤ speed r) :
    ∀ {n : Nat} {s : SchedulerState} {rem : ℚ} {evs : List DutyEvent} {sF : SchedulerState},
      runLoop r n s rem = .ok (evs, sF) →
      s.distSinceFuel ≤ FUEL_INTERVAL_KM →
      ∀ e ∈ evs, e.start ≤ e.stop := by
  intro n
  induction n with
  | zero =>
    intro s rem evs sF h
    simp [runLoop] at h
  | succ n ih =>
    intro s rem evs sF h hfuelinv
    rw [runLoop] at h
    dsimp only at h
    split at h
    · obtain ⟨h1, h2⟩ := Prod.mk.injEq .. ▸ Except.ok.inj h
      subst h1
      intro e hmem
      simp at hmem
    · next hrem =>
      have hrem' : 0 < rem := lt_of_not_le hrem
      split at h
      · next evs0 sF0 heq =>
        obtain ⟨h1, h2⟩ := Prod.mk.injEq .. ▸ Except.ok.inj h
        subst h1; subst h2
        have hstep : (∀ e ∈ (step r s rem).events, e.start ≤ e.stop) ∧
            (step r s rem).state.distSinceFuel ≤ FUEL_INTERVAL_KM := by
          unfold step
          split
          · constructor
            · intro e hmem
              simp only [List.mem_singleton] at hmem
              subst hmem
              dsimp only
              norm_num [RESTART_DURATION]
            · simpa [applyRestart] using hfuelinv
          · split
            · constructor
              · intro e hmem
                simp only [List.mem_singleton] at hmem
                subst hmem
                dsimp only
                norm_num [DAILY_RESET_DURATION]
              · simpa [applyDailyReset] using hfuelinv
            · split
              · constructor
                · intro e hmem
                  simp only [List.mem_singleton] at hmem
                  subst hmem
                  dsimp only
                  norm_num [BREAK_DURATION]
                · simpa [applyBreak] using hfuelinv
              · next hc1 hc2 hc3 =>
                have hcyc : s.cycleHours < MAX_CYCLE_HOURS := by
                  have : needs_cycle_restart s = false := by simpa using hc1
                  simpa [needs_cycle_restart, not_le] using this
                have hdw : s.drivingHours < MAX_DRIVING_HOURS ∧
                    s.windowHours < MAX_WINDOW_HOURS := by
                  have : needs_daily_reset s = false := by simpa using hc2
                  simpa [needs_daily_reset, not_or, not_le] using this
                have hbrk : s.breakHours < BREAK_THRESHOLD := by
                  have : needs_break s = false := by simpa using hc3
                  simpa [needs_break, not_le] using this
                have hfgap : 0 ≤ (FUEL_INTERVAL_KM - s.distSinceFuel) / speed r :=
                  div_nonneg (by linarith) hsp
                have hinc : 0 ≤ driveIncrement r s rem := by
                  unfold driveIncrement
                  exact le_min (le_of_lt hrem') (le_min (by linarith)
                    (le_min (by linarith) (le_min (by linarith)
                      (le_min (by linarith) hfgap))))
                dsimp only
                split
                · constructor
                  · intro e hmem
                    simp only [List.mem_cons, List.mem_singleton,
                      List.not_mem_nil, or_false] at hmem
                    rcases hmem with h1 | h1
                    · subst h1
                      simp only [advanceDriving]
                      linarith
                    · subst h1
                      simp only [advanceDriving]
                      norm_num [FUEL_DURATION]
                  · norm_num [FUEL_INTERVAL_KM]
                · next hfuel =>
                  constructor
                  · intro e hmem
                    simp only [List.mem_singleton] at hmem
                    subst hmem
                    simp only [advanceDriving]
                    linarith
                  · simp only [advanceDriving] at hfuel ⊢
                    exact le_of_lt (lt_of_not_le hfuel)
        intro e hmem
        rcases List.mem_append.mp hmem with hm | hm
        · exact hstep.1 e hm
        · exact ih heq hstep.2 e hm
      · exact absurd h (by simp)

theorem schedule_events_wf {r : RouteSegment} {cyc : ℚ} {evs : List DutyEvent}
    (h : schedule r cyc = .ok evs) : ∀ e ∈ evs, e.start ≤ e.stop := by
  obtain ⟨hval, evs0, s2, heq, rfl⟩ := schedule_ok_elim h
  obtain ⟨_, _, _, _, _, hd, ht⟩ := validInput_iff.mp hval
  have hsp : 0 ≤ speed r := by
    rw [speed]
    exact le_of_lt (div_pos hd ht)
  intro e hmem
  rcases List.mem_append.mp hmem with hm | hm
  · rcases List.mem_cons.mp hm with hm1 | hm1
    · subst hm1
      norm_num [tripStartEvent, LOADING_DURATION]
    · refine runLoop_events_wf hsp heq ?_ e hm1
      simp only [applyOnDuty, initState]
      norm_num [FUEL_INTERVAL_KM]
  · simp only [List.mem_singleton] at hm
    subst hm
    norm_num [dropoffEvent, LOADING_DURATION]

theorem clipQ_mono {a b x y : ℚ} (hxy : x ≤ y) : clipQ a b x ≤ clipQ a b y :=
  min_le_min le_rfl (max_le_max le_rfl hxy)

theorem sumDurations_append (xs ys : List DutyEvent) :
    sumDurations (xs ++ ys) = sumDurations xs + sumDurations ys := by
  simp [sumDurations]

theorem sumDurations_map_clip {a b : ℚ} :
    ∀ {c d : ℚ} {evs : List DutyEvent}, contiguousFrom c evs d →
      sumDurations (evs.map (clipEvent a b)) = clipQ a b d - clipQ a b c := by
  intro c d evs
  induction evs generalizing c with
  | nil =>
    intro h
    simp only [contiguousFrom] at h
    simp [sumDurations, h]
  | cons e es ih =>
    intro h
    obtain ⟨h1, h2⟩ := h
    have hrec := ih h2
    subst h1
    simp only [List.map_cons, sumDurations, List.sum_cons, clipEvent] at hrec ⊢
    linarith

theorem sumDurations_filter_pos :
    ∀ {evs : List DutyEvent}, (∀ e ∈ evs, e.start ≤ e.stop) →
      sumDurations (evs.filter fun e => decide (e.start < e.stop)) = sumDurations evs := by
  intro evs
  induction evs with
  | nil => intro _; rfl
  | cons e es ih =>
    intro hwf
    have hes := fun x hx => hwf x (List.mem_cons_of_mem _ hx)
    have he := hwf e (List.mem_cons_self _ _)
    by_cases hpos : e.start < e.stop
    · rw [List.filter_cons_of_pos (by simpa using hpos)]
      simp only [sumDurations, List.map_cons, List.sum_cons] at *
      rw [ih hes]
    · rw [List.filter_cons_of_neg (by simpa using hpos)]
      have hz : e.stop - e.start = 0 := by
        have := not_lt.mp hpos
        linarith
      simp only [sumDurations, List.map_cons, List.sum_cons] at *
      rw [ih hes, hz]
      ring

theorem clip_mem_dayWindowEvents {evs : List DutyEvent} {T : ℚ} {k : Nat} {e : DutyEvent}
    (he : e ∈ evs)
    (hlt : (clipEvent (24 * (k : ℚ)) (24 * (k : ℚ) + 24) e).start <
      (clipEvent (24 * (k : ℚ)) (24 * (k : ℚ) + 24) e).stop) :
    clipEvent (24 * (k : ℚ)) (24 * (k : ℚ) + 24) e ∈ dayWindowEvents evs T k := by
  unfold dayWindowEvents
  dsimp only
  apply List.mem_append_left
  rw [List.mem_filter]
  exact ⟨List.mem_map_of_mem _ he, by simpa using hlt⟩

/-- Claim C6: every DaySheet the Daily Aggregator produces — the final day of
the trip included — has event durations summing to exactly 24 hours; an event
spanning a 24-hour day boundary is split into two contiguous pieces, one in
each adjacent day's sheet. -/
theorem daySheet_covers_full_day :
    (∀ (r : RouteSegment) (cyc : ℚ) (evs : List DutyEvent) (sheet : DaySheet),
      schedule r cyc = .ok evs → sheet ∈ daySheets evs →
        sumDurations sheet.events = 24) ∧
    (∀ (evs : List DutyEvent) (T : ℚ) (k : Nat) (e : DutyEvent),
      e ∈ evs → e.start < 24 * (k : ℚ) + 24 → 24 * (k : ℚ) + 24 < e.stop →
        clipEvent (24 * (k : ℚ)) (24 * (k : ℚ) + 24) e ∈ dayWindowEvents evs T k ∧
        clipEvent (24 * (k : ℚ) + 24) (24 * (k : ℚ) + 24 + 24) e ∈
          dayWindowEvents evs T (k + 1) ∧
        (clipEvent (24 * (k : ℚ)) (24 * (k : ℚ) + 24) e).stop =
          (clipEvent (24 * (k : ℚ) + 24) (24 * (k : ℚ) + 24 + 24) e).start) := by
  constructor
  · intro r cyc evs sheet h hs
    obtain ⟨hne, hhead, hfrom⟩ := schedule_contiguousFrom h
    have hwf := schedule_events_wf h
    unfold daySheets at hs
    dsimp only at hs
    obtain ⟨k, hk, rfl⟩ := List.mem_map.mp hs
    dsimp only
    unfold dayWindowEvents
    dsimp only
    rw [sumDurations_append]
    have hwfclip : ∀ e2 ∈ evs.map (clipEvent (24 * (k : ℚ)) (24 * (k : ℚ) + 24)),
        e2.start ≤ e2.stop := by
      intro e2 hmem
      obtain ⟨e0, he0, rfl⟩ := List.mem_map.mp hmem
      simpa [clipEvent] using clipQ_mono (hwf e0 he0)
    rw [sumDurations_filter_pos hwfclip]
    rw [sumDurations_map_clip hfrom]
    have ha0 : (0 : ℚ) ≤ 24 * (k : ℚ) := by positivity
    have hzero : clipQ (24 * (k : ℚ)) (24 * (k : ℚ) + 24) 0 = 24 * (k : ℚ) := by
      unfold clipQ
      rw [max_eq_left ha0, min_eq_right (by linarith)]
    rw [hzero]
    split
    · next hcov =>
      simp only [sumDurations, List.map_cons, List.map_nil, List.sum_cons, List.sum_nil]
      ring
    · next hcov =>
      have hle : clipQ (24 * (k : ℚ)) (24 * (k : ℚ) + 24) (lastStop evs) ≤
          24 * (k : ℚ) + 24 := min_le_left _ _
      have heqb : clipQ (24 * (k : ℚ)) (24 * (k : ℚ) + 24) (lastStop evs) =
          24 * (k : ℚ) + 24 := le_antisymm hle (not_lt.mp hcov)
      rw [heqb]
      simp [sumDurations]
  · intro evs T k e he h1 h2
    have hab : (24 * (k : ℚ)) < 24 * (k : ℚ) + 24 := by linarith
    have hstop1 : (clipEvent (24 * (k : ℚ)) (24 * (k : ℚ) + 24) e).stop =
        24 * (k : ℚ) + 24 := by
      simp only [clipEvent]
      unfold clipQ
      rw [max_eq_right (le_of_lt (lt_trans hab h2)), min_eq_left (le_of_lt h2)]
    have hstart1 : (clipEvent (24 * (k : ℚ)) (24 * (k : ℚ) + 24) e).start <
        24 * (k : ℚ) + 24 := by
      simp only [clipEvent]
      unfold clipQ
      exact lt_of_le_of_lt (min_le_right _ _) (max_lt hab h1)
    have hstart2 : (clipEvent (24 * (k : ℚ) + 24) (24 * (k : ℚ) + 24 + 24) e).start =
        24 * (k : ℚ) + 24 := by
      simp only [clipEvent]
      unfold clipQ
      rw [max_eq_left (le_of_lt h1), min_eq_right (by linarith)]
    have hstop2 : 24 * (k : ℚ) + 24 <
        (clipEvent (24 * (k : ℚ) + 24) (24 * (k : ℚ) + 24 + 24) e).stop := by
      simp only [clipEvent]
      unfold clipQ
      rw [max_eq_right (le_of_lt h2)]
      exact lt_min (by linarith) h2
    have hcast : ((24 : ℚ) * ((k + 1 : Nat) : ℚ)) = 24 * (k : ℚ) + 24 := by
      push_cast
      ring
    refine ⟨?_, ?_, ?_⟩
    · exact clip_mem_dayWindowEvents he (by rw [hstop1]; exact hstart1)
    · have hmem := clip_mem_dayWindowEvents (k := k + 1) (T := T) he ?_
      · rwa [hcast] at hmem
      · rw [hcast, hstart2]
        exact hstop2
    · rw [hstop1, hstart2]

/-- Witness for claim C6: the single day sheet of the demo run sums to 24
hours, and the 34-hour restart of the near-cap run splits at the hour-24
boundary into contiguous pieces of day 1 and day 2. -/
theorem daySheet_covers_full_day_witness :
    sumDurations demoSheet.events = 24 ∧
    (clipEvent (24 * ((0 : Nat) : ℚ)) (24 * ((0 : Nat) : ℚ) + 24)
        ⟨DutyStatus.OffDuty, EventSubtype.restart, 1, 35, "34-hour cycle restart"⟩ ∈
      dayWindowEvents nearCapTimeline 38 0 ∧
    clipEvent (24 * ((0 : Nat) : ℚ) + 24) (24 * ((0 : Nat) : ℚ) + 24 + 24)
        ⟨DutyStatus.OffDuty, EventSubtype.restart, 1, 35, "34-hour cycle restart"⟩ ∈
      dayWindowEvents nearCapTimeline 38 1 ∧
    (clipEvent (24 * ((0 : Nat) : ℚ)) (24 * ((0 : Nat) : ℚ) + 24)
        ⟨DutyStatus.OffDuty, EventSubtype.restart, 1, 35, "34-hour cycle restart"⟩).stop =
      (clipEvent (24 * ((0 : Nat) : ℚ) + 24) (24 * ((0 : Nat) : ℚ) + 24 + 24)
        ⟨DutyStatus.OffDuty, EventSubtype.restart, 1, 35, "34-hour cycle restart"⟩).start) :=
  ⟨daySheet_covers_full_day.1 rDemo 0 demoTimeline demoSheet (by decide) (by decide),
   daySheet_covers_full_day.2 nearCapTimeline 38 0
     ⟨DutyStatus.OffDuty, EventSubtype.restart, 1, 35, "34-hour cycle restart"⟩
     (by decide) (by decide) (by decide)⟩

end TripPlanner
